/-
Verification of the 7-Zip plugin bridge layer (sevenzip-plugin).

Shallow embedding of the code in `src/windows/propvariant.rs` and
`src/windows/handler.rs`, together with proofs of the specified properties.

Modelling conventions:
* `HRESULT` is an `Int` (the i32 value); `hresult_is_err hr` is the windows
  crate's `HRESULT::is_err`, i.e. `hr < 0`.
* Machine integers are `Nat`/`Int`; wrapping 64-bit additions appear as
  explicit `% 2^64` (release-profile semantics).
* The host (7-Zip) is an oracle structure supplying the responses of its
  callback objects; orchestrator runs return the HRESULT together with a
  trace of the observable calls made back into the host.
* Raw pointers are modelled by what they observably are: a stream pointer by
  whether it is null plus the behaviour of the stream behind it, the stored
  interface pointer of `query_interface` by which address was stored.
-/
import Mathlib

namespace SevenzipPlugin

/-! ## HRESULT values (windows crate / handler.rs) -/

/-- `S_OK` -/
def S_OK : Int := 0

/-- `S_FALSE` -/
def S_FALSE : Int := 1

/-- `E_INVALIDARG` (0x80070057 as i32) -/
def E_INVALIDARG : Int := -2147024809

/-- `E_NOINTERFACE` (0x80004002 as i32) -/
def E_NOINTERFACE : Int := -2147467262

/-- `E_POINTER` (0x80004003 as i32) -/
def E_POINTER : Int := -2147467261

/-- `E_NOTIMPL` (0x80004001 as i32) -/
def E_NOTIMPL : Int := -2147467263

/-- `HRESULT::is_err`: the HRESULT (as i32) is negative. -/
def hresult_is_err (hr : Int) : Bool := hr < 0

/-! ## Tagged variant (propvariant.rs) -/

/-- `VT_EMPTY` -/
def VT_EMPTY : Nat := 0

/-- `VT_UI4` -/
def VT_UI4 : Nat := 19

/-- `VT_UI8` -/
def VT_UI8 : Nat := 21

/-- `VT_BSTR` -/
def VT_BSTR : Nat := 8

/-- `VT_BOOL` -/
def VT_BOOL : Nat := 11

/-- `VT_FILETIME` -/
def VT_FILETIME : Nat := 64

/-- Difference between the Unix epoch (1970) and the Windows epoch (1601) in
100ns intervals (`FILETIME_UNIX_DIFF` in propvariant.rs). -/
def FILETIME_UNIX_DIFF : Nat := 116444736000000000

/-- The 16-byte `RawPropVariant` of propvariant.rs: a 2-byte type tag, three
reserved 2-byte fields and an 8-byte payload.  For `VT_BSTR` the payload is a
pointer into host-owned memory; the `str` field models the UTF-16 string the
pointer designates (`none` models a null pointer). -/
structure RawPropVariant where
  vt : Nat := VT_EMPTY
  reserved1 : Nat := 0
  reserved2 : Nat := 0
  reserved3 : Nat := 0
  data : Nat := 0
  str : Option String := none
deriving DecidableEq, Repr

namespace RawPropVariant

/-- `RawPropVariant::clear`: release any BSTR allocation and reset the tag and
payload (the reserved fields are untouched, as in the source). -/
def clear (p : RawPropVariant) : RawPropVariant :=
  { p with vt := VT_EMPTY, data := 0, str := none }

/-- `RawPropVariant::set_empty` -/
def set_empty (p : RawPropVariant) : RawPropVariant :=
  { p with vt := VT_EMPTY, data := 0 }

/-- `RawPropVariant::set_u32` -/
def set_u32 (p : RawPropVariant) (value : Nat) : RawPropVariant :=
  { p.clear with vt := VT_UI4, data := value }

/-- `RawPropVariant::set_u64` -/
def set_u64 (p : RawPropVariant) (value : Nat) : RawPropVariant :=
  { p.clear with vt := VT_UI8, data := value }

/-- `RawPropVariant::set_bool`: `VARIANT_TRUE` is 0xFFFF, `VARIANT_FALSE` 0. -/
def set_bool (p : RawPropVariant) (value : Bool) : RawPropVariant :=
  { p.clear with vt := VT_BOOL, data := if value then 0xFFFF else 0 }

/-- `RawPropVariant::set_filetime` -/
def set_filetime (p : RawPropVariant) (value : Nat) : RawPropVariant :=
  { p.clear with vt := VT_FILETIME, data := value }

/-- `RawPropVariant::set_bstr`: allocate a BSTR holding `value`. -/
def set_bstr (p : RawPropVariant) (value : String) : RawPropVariant :=
  { p.clear with vt := VT_BSTR, data := 1, str := some value }

/-- `RawPropVariant::get_u64`: `Some` for `VT_UI8`, and for `VT_UI4` the
payload masked to 32 bits; `None` otherwise. -/
def get_u64 (p : RawPropVariant) : Option Nat :=
  if p.vt = VT_UI8 then some p.data
  else if p.vt = VT_UI4 then some (p.data % 4294967296)
  else none

/-- `RawPropVariant::get_u32`: `Some` only for `VT_UI4`. -/
def get_u32 (p : RawPropVariant) : Option Nat :=
  if p.vt = VT_UI4 then some (p.data % 4294967296)
  else none

/-- `RawPropVariant::get_bool`: `Some (data != 0)` only for `VT_BOOL`. -/
def get_bool (p : RawPropVariant) : Option Bool :=
  if p.vt = VT_BOOL then some (p.data ≠ 0)
  else none

/-- `RawPropVariant::get_bstr`: `Some` only for `VT_BSTR` with a non-null
payload pointer (`str = none` models the null pointer case). -/
def get_bstr (p : RawPropVariant) : Option String :=
  if p.vt = VT_BSTR then p.str else none

end RawPropVariant

/-! ## FILETIME conversion (propvariant.rs)

The crate's `windows` module is `#[cfg(windows)]`-gated, so `SystemTime` here
is the Windows one: a signed 64-bit count `t` of 100ns intervals since
1601-01-01.  `SystemTime::duration_since(UNIX_EPOCH)` succeeds iff
`t ≥ FILETIME_UNIX_DIFF`, yielding the duration `(t - FILETIME_UNIX_DIFF)`
intervals, i.e. `(t - FILETIME_UNIX_DIFF) * 100` nanoseconds. -/

/-- A Windows `SystemTime`: 100ns intervals since 1601-01-01 as an i64. -/
def SystemTimeIntervals := Int

/-- `time.duration_since(std::time::UNIX_EPOCH)`: total nanoseconds of the
duration on success, error when the time precedes the Unix epoch. -/
def duration_since_unix_epoch (t : Int) : Except Unit Nat :=
  if (FILETIME_UNIX_DIFF : Int) ≤ t then
    .ok ((t - (FILETIME_UNIX_DIFF : Int)).toNat * 100)
  else
    .error ()

/-- `systemtime_to_filetime`: on success `FILETIME_UNIX_DIFF + nanos/100`
with the u128→u64 cast and the u64 addition wrapping mod 2^64; before the
Unix epoch, 0. -/
def systemtime_to_filetime (t : Int) : Nat :=
  match duration_since_unix_epoch t with
  | .ok nanos => (FILETIME_UNIX_DIFF + nanos / 100 % 2 ^ 64) % 2 ^ 64
  | .error _ => 0

/-! ## GUIDs and `query_interface` (com.rs, handler.rs) -/

/-- A 16-byte interface identifier, as the windows crate's `GUID`. -/
structure GUID where
  data1 : Nat
  data2 : Nat
  data3 : Nat
  data4 : List Nat
deriving DecidableEq, Repr

/-- `IID_IUNKNOWN` = 00000000-0000-0000-C000-000000000046 -/
def IID_IUNKNOWN : GUID := ⟨0, 0, 0, [0xC0, 0, 0, 0, 0, 0, 0, 0x46]⟩

/-- `IID_IINARCHIVE` = 23170f69-40c1-278a-0000-000600600000 -/
def IID_IINARCHIVE : GUID :=
  ⟨0x23170f69, 0x40c1, 0x278a, [0, 0, 0, 0x06, 0, 0x60, 0, 0]⟩

/-- `IID_IOUTARCHIVE` = 23170f69-40c1-278a-0000-000600a00000 -/
def IID_IOUTARCHIVE : GUID :=
  ⟨0x23170f69, 0x40c1, 0x278a, [0, 0, 0, 0x06, 0, 0xa0, 0, 0]⟩

/-- What `query_interface` stored through `ppv_object`: the object's own
address, the address of the `out_vtbl` field within the object, or null. -/
inductive StoredPtr where
  | base
  | outVtblField
  | nullPtr
deriving DecidableEq, Repr

/-- `add_ref`: `fetch_add(1)` on the atomic u32 count, returning the
post-increment value. -/
def add_ref (refCount : Nat) : Nat := (refCount + 1) % 2 ^ 32

/-- `query_interface` in handler.rs.  Inputs: whether the format type's
`supports_write()` is true, whether `ppv_object` is null, the requested IID
and the current reference count.  Output: the HRESULT, what was stored
through `ppv_object` (`none` when it was not written), and the new count. -/
def query_interface (supportsWrite : Bool) (ppvNull : Bool) (riid : GUID)
    (refCount : Nat) : Int × Option StoredPtr × Nat :=
  if ppvNull then (E_POINTER, none, refCount)
  else if riid = IID_IUNKNOWN ∨ riid = IID_IINARCHIVE then
    (S_OK, some .base, add_ref refCount)
  else if riid = IID_IOUTARCHIVE ∧ supportsWrite then
    (S_OK, some .outVtblField, add_ref refCount)
  else
    (E_NOINTERFACE, some .nullPtr, refCount)

/-! ## Archive items (types.rs) -/

/-- `ArchiveItem` of types.rs.  Timestamps are Windows `SystemTime` interval
counts (see above). -/
structure ArchiveItem where
  name : String := ""
  size : Nat := 0
  compressed_size : Option Nat := none
  modified : Option Int := none
  created : Option Int := none
  accessed : Option Int := none
  is_dir : Bool := false
  attributes : Option Nat := none
  crc : Option Nat := none
  encrypted : Bool := false
deriving DecidableEq, Repr

/-! ## Extraction orchestrator (handler.rs `extract`) -/

/-- `NAskMode::kExtract` -/
def NASK_EXTRACT : Int := 0

/-- `NOperationResult::kOK` -/
def NRESULT_OK : Int := 0

/-- `NOperationResult::kDataError` -/
def NRESULT_DATA_ERROR : Int := 1

/-- The `(indices, num_items)` pair of an `extract` call: `num_items ==
u32::MAX` is the all-items sentinel, otherwise `num_items` indices are read
from the `indices` pointer. -/
inductive ExtractIndices where
  | all
  | explicit (l : List Nat)

/-- `let indices_to_extract = if extract_all { (0..item_count).collect() }
else { slice::from_raw_parts(indices, num_items).to_vec() }`. -/
def resolve_indices : ExtractIndices → Nat → List Nat
  | .all, count => List.range count
  | .explicit l, _ => l

/-- Responses of the host's `IArchiveExtractCallback` (and of the format
logic) during one `extract` call, keyed by item index:
* `getStream i`: the HRESULT of `get_stream` and whether the stream it
  stored is non-null;
* `extractOk i`: whether `extract_to_with_password` on the format
  implementation succeeds at index `i`;
* `setOpResultHr i`: the HRESULT the host returns from
  `set_operation_result` for index `i`.
The HRESULTs of `set_total`, `prepare_operation` and `set_completed` are
discarded by the source (`let _ =`) and are not modelled. -/
structure ExtractHost where
  getStream : Nat → Int × Bool
  extractOk : Nat → Bool
  setOpResultHr : Nat → Int

/-- Observable calls `extract` makes back into the host. -/
inductive ExtractEvent where
  | setTotal (total : Nat)
  | prepare (index : Nat)
  | opResult (index : Nat) (result : Int)
  | completed (value : Nat)
deriving DecidableEq, Repr

/-- The per-index loop of `extract`.  `completed` is the running u64 byte
count; indices that do not resolve to an item are skipped (`continue`);
a failing `get_stream` or `set_operation_result` aborts the whole call with
the host's HRESULT. -/
def extract_loop (items : List ArchiveItem) (testMode : Int)
    (host : ExtractHost) : List Nat → Nat → Int × List ExtractEvent
  | [], _ => (S_OK, [])
  | index :: rest, completed =>
    match items[index]? with
    | none => extract_loop items testMode host rest completed
    | some item =>
      let hrStream := (host.getStream index).1
      if hresult_is_err hrStream then (hrStream, [])
      else
        let result :=
          if testMode ≠ 0 ∨ (host.getStream index).2 = false then NRESULT_OK
          else if host.extractOk index then NRESULT_OK
          else NRESULT_DATA_ERROR
        let hrOp := host.setOpResultHr index
        if hresult_is_err hrOp then
          (hrOp, [.prepare index, .opResult index result])
        else
          let completed2 := (completed + item.size) % 2 ^ 64
          let rec_result := extract_loop items testMode host rest completed2
          (rec_result.1,
            .prepare index :: .opResult index result ::
              .completed completed2 :: rec_result.2)

/-- `extract` in handler.rs.  `callbackNull` models a null
`extract_callback`; the total is the wrapping u64 sum of the declared sizes
of the resolved indices that map to items. -/
def extract (items : List ArchiveItem) (req : ExtractIndices) (testMode : Int)
    (callbackNull : Bool) (host : ExtractHost) : Int × List ExtractEvent :=
  if callbackNull then (E_INVALIDARG, [])
  else
    let idxs := resolve_indices req items.length
    let total :=
      (idxs.filterMap (fun i => items[i]?.map (·.size))).sum % 2 ^ 64
    let run := extract_loop items testMode host idxs 0
    (run.1, .setTotal total :: run.2)

/-- The per-item result code `extract` computes for a resolved index. -/
def extract_result_for (testMode : Int) (host : ExtractHost) (i : Nat) : Int :=
  if testMode ≠ 0 ∨ (host.getStream i).2 = false then NRESULT_OK
  else if host.extractOk i then NRESULT_OK
  else NRESULT_DATA_ERROR

/-! ## Update orchestrator (handler.rs `update_items` / `update_items_inner`) -/

/-- `u32::MAX`, the "no index in archive" sentinel of `get_update_item_info`. -/
def U32_MAX : Nat := 4294967295

/-- `UpdateItem` of types.rs: the descriptors handed to the format logic's
`update_streaming_with_password`.  Byte content is a list of byte values. -/
inductive UpdateItem where
  | CopyExisting (index : Nat) (new_name : Option String)
  | AddNew (name : String) (data : List Nat)
deriving DecidableEq, Repr

/-- Behaviour of the per-slot input stream the update callback's
`get_stream` stored: null, a stream whose `read_sequential_stream` succeeds
with the given bytes, or a stream whose read fails. -/
inductive SlotStream where
  | nullStream
  | readOk (data : List Nat)
  | readErr
deriving DecidableEq, Repr

/-- Responses of the host's `IArchiveUpdateCallback` and of the format logic
during one `update_items` call:
* `itemInfo i`: `get_update_item_info` — (HRESULT, new_data, new_props,
  index_in_archive);
* `sizeProp i` / `isDirProp i`: the variant `get_property(i, Size)` resp.
  `get_property(i, IsDir)` left in place (their HRESULTs are discarded);
* `pathProp i`: HRESULT and variant of `get_property(i, Path)`;
* `streamResp i`: HRESULT of `get_stream` and the stored stream;
* `reports`: the `(completed, total)` pairs the format logic feeds to the
  progress callback during the write phase;
* `setCompletedHr n`: the host's HRESULT for the `n`-th such
  `set_completed` (discarded by the source);
* `writeOk`: whether `update_streaming_with_password` succeeds;
* `inReaderOk`: whether `InStreamReader::new` on the held input stream
  succeeds.
The HRESULTs of `set_total` and `set_operation_result` are discarded by the
source (`let _ =`) and are not modelled. -/
structure UpdateHost where
  itemInfo : Nat → Int × Int × Int × Nat
  sizeProp : Nat → RawPropVariant
  isDirProp : Nat → RawPropVariant
  pathProp : Nat → Int × RawPropVariant
  streamResp : Nat → Int × SlotStream
  reports : List (Nat × Nat)
  setCompletedHr : Nat → Int
  writeOk : Bool
  inReaderOk : Bool

/-- Observable calls `update_items` makes back into the host.
`writePhase descs` marks the invocation of the format logic's
`update_streaming_with_password` with the collected descriptor list;
`progressReport` records a `set_completed` issued by the rescaling progress
callback (the f64-scaled argument is not modelled, the raw pair reported by
the format logic is recorded); `setCompleted` is the explicit 100% report
after a successful write phase; `innerClose` is `handler.inner.close()`;
`releaseInStream` is the `Release` of the held input-stream reference. -/
inductive UpdateEvent where
  | setTotal (total : Nat)
  | opResult (slot : Nat) (result : Int)
  | writePhase (descs : List UpdateItem)
  | progressReport (completed total : Nat)
  | setCompleted (total : Nat)
  | innerClose
  | releaseInStream
deriving DecidableEq, Repr

/-- Sizing contribution of one slot in the first pass of
`update_items_inner`: for new data the `Size` property decoded as u64
(`unwrap_or(0)`), for a copy the referenced item's declared size (0 when the
index does not resolve), otherwise 0.  A failing `get_update_item_info`
aborts with the host's HRESULT. -/
def pass1_slot (items : List ArchiveItem) (host : UpdateHost) (i : Nat) :
    Except Int Nat :=
  let (hr, new_data, _new_props, index_in_archive) := host.itemInfo i
  if hresult_is_err hr then .error hr
  else if new_data ≠ 0 then .ok ((host.sizeProp i).get_u64.getD 0)
  else if index_in_archive ≠ U32_MAX then
    .ok (match items[index_in_archive]? with
         | some item => item.size
         | none => 0)
  else .ok 0

/-- First pass of `update_items_inner`: accumulate the total reported to
`set_total`, with wrapping u64 addition. -/
def pass1 (items : List ArchiveItem) (host : UpdateHost) :
    List Nat → Nat → Except Int Nat
  | [], total => .ok total
  | i :: rest, total =>
    match pass1_slot items host i with
    | .error hr => .error hr
    | .ok c => pass1 items host rest ((total + c) % 2 ^ 64)

/-- The bytes collected from a slot's input stream: a null stream or a
failing `read_sequential_stream` (`unwrap_or_default`) yields empty
content. -/
def stream_data : SlotStream → List Nat
  | .nullStream => []
  | .readOk d => d
  | .readErr => []

/-- Collection behaviour of one slot in the second pass: either an abort
HRESULT, or an optional descriptor together with the events emitted for the
slot.  Directory slots emit only an ok result; new-data slots read the path,
acquire the stream and read it (`unwrap_or_default`, so a failing read or a
null stream yields empty content); copy slots emit a `CopyExisting` with no
rename; slots with neither flag emit nothing. -/
def pass2_slot (host : UpdateHost) (i : Nat) :
    Except Int (Option UpdateItem × List UpdateEvent) :=
  let (hr, new_data, _new_props, index_in_archive) := host.itemInfo i
  if hresult_is_err hr then .error hr
  else if new_data ≠ 0 then
    if (host.isDirProp i).get_bool.getD false then
      .ok (none, [.opResult i NRESULT_OK])
    else
      let (hrPath, pathVar) := host.pathProp i
      if hresult_is_err hrPath then .error hrPath
      else
        let name := pathVar.get_bstr.getD ""
        let (hrStream, sc) := host.streamResp i
        if hresult_is_err hrStream then .error hrStream
        else .ok (some (.AddNew name (stream_data sc)), [.opResult i NRESULT_OK])
  else if index_in_archive ≠ U32_MAX then
    .ok (some (.CopyExisting index_in_archive none), [.opResult i NRESULT_OK])
  else .ok (none, [])

/-- Result of the second pass: the collected descriptors, the emitted
events, and the abort HRESULT when a slot aborted. -/
structure Pass2Out where
  descs : List UpdateItem
  evs : List UpdateEvent
  err : Option Int
deriving DecidableEq, Repr

/-- Second pass of `update_items_inner` over the slot indices. -/
def pass2 (host : UpdateHost) : List Nat → Pass2Out
  | [] => ⟨[], [], none⟩
  | i :: rest =>
    match pass2_slot host i with
    | .error hr => ⟨[], [], some hr⟩
    | .ok (desc, evs) =>
      let o := pass2 host rest
      ⟨desc.toList ++ o.descs, evs ++ o.evs, o.err⟩

/-- The rescaling progress closure `progress_fn` of `update_items_inner`:
it calls the host's `set_completed` (whose HRESULT — the first argument — is
discarded) and returns `true`, the continue signal.  The f64-scaled value is
not modelled; the event records the raw pair the format logic reported. -/
def progress_fn (_set_completed_hr : Int) (write_completed write_total : Nat) :
    UpdateEvent × Bool :=
  (.progressReport write_completed write_total, true)

/-- The write phase body shared by the empty-archive and existing-archive
branches: invoke `update_streaming_with_password` with the collected
descriptors, map the format logic's progress reports through `progress_fn`,
and on success report exactly the declared total via `set_completed`. -/
def run_write (host : UpdateHost) (descs : List UpdateItem) (total : Nat) :
    Int × List UpdateEvent × List Bool :=
  let steps := host.reports.enum.map
    (fun p => progress_fn (host.setCompletedHr p.1) p.2.1 p.2.2)
  let evs := UpdateEvent.writePhase descs :: steps.map Prod.fst
  let sigs := steps.map Prod.snd
  if host.writeOk then (S_OK, evs ++ [.setCompleted total], sigs)
  else (S_FALSE, evs, sigs)

/-- Handler state relevant to the orchestrators: the wrapped format
implementation's item list, the open flag, whether an input-stream reference
is held (`in_stream` non-null), and the cached archive size. -/
structure HandlerState where
  items : List ArchiveItem
  isOpen : Bool
  inStream : Bool
  archiveSize : Nat
deriving DecidableEq, Repr

/-- The write phase of `update_items_inner`: with no held input stream an
empty reader is used; otherwise `InStreamReader::new` may fail (`S_FALSE`).
The source duplicates the call in the two branches; both reduce to
`run_write`. -/
def write_phase (st : HandlerState) (host : UpdateHost)
    (descs : List UpdateItem) (total : Nat) :
    Int × List UpdateEvent × List Bool :=
  if st.inStream = false then run_write host descs total
  else if host.inReaderOk = false then (S_FALSE, [], [])
  else run_write host descs total

/-- `update_items_inner`: two passes over the slots, then the write phase.
Returns the HRESULT, the event trace, and the list of continue signals the
progress closure returned to the format logic. -/
def update_items_inner (st : HandlerState) (host : UpdateHost) (num : Nat) :
    Int × List UpdateEvent × List Bool :=
  match pass1 st.items host (List.range num) 0 with
  | .error hr => (hr, [], [])
  | .ok total =>
    let p2 := pass2 host (List.range num)
    match p2.err with
    | some hr => (hr, .setTotal total :: p2.evs, [])
    | none =>
      let w := write_phase st host p2.descs total
      (w.1, .setTotal total :: (p2.evs ++ w.2.1), w.2.2)

/-- `update_items`: argument validation, then the inner call, then the
unconditional cleanup (close the format implementation, clear the open flag,
release and null the held input-stream reference).  Returns the HRESULT, the
event trace, the progress continue signals, and the final handler state. -/
def update_items (st : HandlerState) (outStreamNull callbackNull : Bool)
    (host : UpdateHost) (num : Nat) :
    Int × List UpdateEvent × List Bool × HandlerState :=
  if outStreamNull ∨ callbackNull then (E_INVALIDARG, [], [], st)
  else
    let r := update_items_inner st host num
    let evs := r.2.1 ++ [.innerClose] ++
      (if st.inStream then [.releaseInStream] else [])
    (r.1, evs, r.2.2, { st with isOpen := false, inStream := false })

/-! ## Theorems -/

/-- On the success path, `systemtime_to_filetime` is exactly
`FILETIME_UNIX_DIFF` plus the interval count since the Unix epoch. -/
lemma systemtime_to_filetime_of_le (t : Int)
    (hle : (FILETIME_UNIX_DIFF : Int) ≤ t) (hhi : t < 2 ^ 63) :
    systemtime_to_filetime t =
      FILETIME_UNIX_DIFF + (t - (FILETIME_UNIX_DIFF : Int)).toNat := by
  have hd : (t - (FILETIME_UNIX_DIFF : Int)).toNat < 2 ^ 64 := by
    have : t - (FILETIME_UNIX_DIFF : Int) < 2 ^ 64 := by
      have h63 : (2 : Int) ^ 63 ≤ 2 ^ 64 := by norm_num
      omega
    omega
  have hsum : FILETIME_UNIX_DIFF + (t - (FILETIME_UNIX_DIFF : Int)).toNat
      < 2 ^ 64 := by
    have : t - (FILETIME_UNIX_DIFF : Int) < 2 ^ 63 := by
      have : (0 : Int) < (FILETIME_UNIX_DIFF : Int) := by
        unfold FILETIME_UNIX_DIFF; norm_num
      omega
    unfold FILETIME_UNIX_DIFF at *
    omega
  unfold systemtime_to_filetime duration_since_unix_epoch
  rw [if_pos hle]
  simp only []
  rw [Nat.mul_div_cancel _ (by norm_num : 0 < 100),
    Nat.mod_eq_of_lt hd, Nat.mod_eq_of_lt hsum]

/-- The claim's formula `seconds × 10^7 + remaining-nanoseconds / 100`
equals the 100ns interval count, for a duration of `d` intervals. -/
lemma seconds_formula_eq (d : Nat) :
    d * 100 / 1000000000 * 10000000 + d * 100 % 1000000000 / 100 = d := by
  have h1 : d * 100 / 1000000000 = d / 10000000 := by
    have : (1000000000 : Nat) = 100 * 10000000 := by norm_num
    rw [this, Nat.mul_comm d 100, Nat.mul_div_mul_left _ _ (by norm_num)]
  have h2 : d * 100 % 1000000000 = d % 10000000 * 100 := by
    have : (1000000000 : Nat) = 10000000 * 100 := by norm_num
    rw [this, Nat.mul_mod_mul_right]
  rw [h1, h2, Nat.mul_div_cancel _ (by norm_num : 0 < 100), Nat.mul_comm,
    Nat.div_add_mod]

/-- **C3.** For every timestamp at or after the Unix epoch, the FILETIME
conversion returns exactly `116444736000000000 + (seconds-since-Unix-epoch ×
10000000 + remaining-nanoseconds / 100)` — in particular epoch second 0
yields exactly `116444736000000000` — and every timestamp strictly before
the Unix epoch yields exactly 0.  Timestamps are quantified over the
platform `SystemTime` domain (a signed 64-bit count of 100ns intervals since
1601-01-01; the crate's `windows` module is `#[cfg(windows)]`-gated). -/
theorem systemtime_to_filetime_spec (t : Int)
    (hlo : -(2 ^ 63) ≤ t) (hhi : t < 2 ^ 63) :
    ((FILETIME_UNIX_DIFF : Int) ≤ t →
      systemtime_to_filetime t =
        FILETIME_UNIX_DIFF +
          ((t - (FILETIME_UNIX_DIFF : Int)).toNat * 100 / 1000000000 * 10000000 +
           (t - (FILETIME_UNIX_DIFF : Int)).toNat * 100 % 1000000000 / 100)) ∧
    (t < (FILETIME_UNIX_DIFF : Int) → systemtime_to_filetime t = 0) ∧
    (t = (FILETIME_UNIX_DIFF : Int) →
      systemtime_to_filetime t = 116444736000000000) := by
  refine ⟨fun hle => ?_, fun hlt => ?_, fun heq => ?_⟩
  · rw [systemtime_to_filetime_of_le t hle hhi, seconds_formula_eq]
  · unfold systemtime_to_filetime duration_since_unix_epoch
    rw [if_neg (by omega)]
  · subst heq
    rw [systemtime_to_filetime_of_le _ le_rfl (by unfold FILETIME_UNIX_DIFF; norm_num)]
    simp [FILETIME_UNIX_DIFF]

/-- Witness for C3: the Unix epoch itself and one second before it. -/
theorem systemtime_to_filetime_spec_witness :
    systemtime_to_filetime 116444736000000000 = 116444736000000000 ∧
    systemtime_to_filetime 116444726000000000 = 0 :=
  ⟨(systemtime_to_filetime_spec 116444736000000000 (by norm_num)
      (by norm_num)).2.2 (by norm_num [FILETIME_UNIX_DIFF]),
   (systemtime_to_filetime_spec 116444726000000000 (by norm_num)
      (by norm_num)).2.1 (by norm_num [FILETIME_UNIX_DIFF])⟩

/-- **C6.** `query_interface` with a valid out-pointer: the base or read
IID stores the object's own address, returns `S_OK` and increments the
count; the write IID with write support stores the address of the
`out_vtbl` field, returns `S_OK` and increments the count; anything else
(including the write IID without write support) stores null, returns
`E_NOINTERFACE`, and leaves the count unchanged.  The count is a u32; the
hypothesis keeps the increment below the wrap. -/
theorem query_interface_spec (supportsWrite : Bool) (riid : GUID)
    (refCount : Nat) (hrc : refCount + 1 < 2 ^ 32) :
    (riid = IID_IUNKNOWN ∨ riid = IID_IINARCHIVE →
      query_interface supportsWrite false riid refCount =
        (S_OK, some .base, refCount + 1)) ∧
    (riid = IID_IOUTARCHIVE → supportsWrite = true →
      query_interface supportsWrite false riid refCount =
        (S_OK, some .outVtblField, refCount + 1)) ∧
    (riid ≠ IID_IUNKNOWN → riid ≠ IID_IINARCHIVE →
      (riid = IID_IOUTARCHIVE → supportsWrite = false) →
      query_interface supportsWrite false riid refCount =
        (E_NOINTERFACE, some .nullPtr, refCount)) := by
  have hadd : add_ref refCount = refCount + 1 := Nat.mod_eq_of_lt hrc
  refine ⟨fun h => ?_, fun h hw => ?_, fun h1 h2 h3 => ?_⟩
  · unfold query_interface
    rw [if_neg (by simp), if_pos h, hadd]
  · have hne1 : riid ≠ IID_IUNKNOWN := by
      subst h; decide
    have hne2 : riid ≠ IID_IINARCHIVE := by
      subst h; decide
    unfold query_interface
    rw [if_neg (by simp), if_neg (by tauto), if_pos ⟨h, hw⟩, hadd]
  · unfold query_interface
    rw [if_neg (by simp), if_neg (by tauto), if_neg (by
      rintro ⟨ho, hsw⟩
      rw [h3 ho] at hsw
      exact Bool.false_ne_true hsw)]

/-- Witness for C6: the read IID, the write IID with write support, and the
write IID without write support, at count 1. -/
theorem query_interface_spec_witness :
    query_interface true false IID_IINARCHIVE 1 = (S_OK, some .base, 2) ∧
    query_interface true false IID_IOUTARCHIVE 1 =
      (S_OK, some .outVtblField, 2) ∧
    query_interface false false IID_IOUTARCHIVE 1 =
      (E_NOINTERFACE, some .nullPtr, 1) :=
  ⟨(query_interface_spec true IID_IINARCHIVE 1 (by norm_num)).1 (Or.inr rfl),
   (query_interface_spec true IID_IOUTARCHIVE 1 (by norm_num)).2.1 rfl rfl,
   (query_interface_spec false IID_IOUTARCHIVE 1 (by norm_num)).2.2
     (by decide) (by decide) (fun _ => rfl)⟩

/-- **C7 (counterexample).** The claim says decoding as unsigned-64 returns
absent for every tag other than `VT_UI8`; but `get_u64` also accepts
`VT_UI4`, returning the 32-bit payload.  -/
theorem get_u64_accepts_ui4_counterexample :
    RawPropVariant.get_u64 { vt := VT_UI4, data := 5 } = some 5 ∧
    VT_UI4 ≠ VT_UI8 := by
  constructor
  · rfl
  · decide

/-- **C7 (amended).** Decoding with an expected tag returns absent on a tag
mismatch: `get_u64` returns `none` for every tag other than `VT_UI8` *or*
`VT_UI4` (a `VT_UI4` payload is widened), `get_u32` returns `none` for every
tag other than `VT_UI4`, and `get_bool` returns `none` for every tag other
than `VT_BOOL`. -/
theorem decode_tag_mismatch_absent (p : RawPropVariant) :
    (p.vt ≠ VT_UI8 → p.vt ≠ VT_UI4 → p.get_u64 = none) ∧
    (p.vt ≠ VT_UI4 → p.get_u32 = none) ∧
    (p.vt ≠ VT_BOOL → p.get_bool = none) := by
  refine ⟨fun h1 h2 => ?_, fun h => ?_, fun h => ?_⟩
  · unfold RawPropVariant.get_u64
    rw [if_neg h1, if_neg h2]
  · unfold RawPropVariant.get_u32
    rw [if_neg h]
  · unfold RawPropVariant.get_bool
    rw [if_neg h]

/-- Witness for the amended C7: a `VT_FILETIME` variant decodes as absent
under all three decoders. -/
theorem decode_tag_mismatch_absent_witness :
    RawPropVariant.get_u64 { vt := VT_FILETIME, data := 7 } = none ∧
    RawPropVariant.get_u32 { vt := VT_FILETIME, data := 7 } = none ∧
    RawPropVariant.get_bool { vt := VT_FILETIME, data := 7 } = none :=
  ⟨(decode_tag_mismatch_absent _).1 (by decide) (by decide),
   (decode_tag_mismatch_absent _).2.1 (by decide),
   (decode_tag_mismatch_absent _).2.2 (by decide)⟩

/-- **C8.** Encoding any 64-bit unsigned value with `set_u64` and decoding
with `get_u64` returns the original value, whatever the variant held
before. -/
theorem set_u64_get_u64_roundtrip (p : RawPropVariant) (v : Nat)
    (_hv : v < 2 ^ 64) :
    (p.set_u64 v).get_u64 = some v := by
  unfold RawPropVariant.set_u64 RawPropVariant.get_u64 RawPropVariant.clear
  simp [VT_UI8, VT_UI4]

/-- Witness for C8: the roundtrip at 0 and at the maximum u64 value, on a
variant that previously held a string. -/
theorem set_u64_get_u64_roundtrip_witness :
    (RawPropVariant.set_u64 (RawPropVariant.set_bstr {} "old") 0).get_u64 =
      some 0 ∧
    (RawPropVariant.set_u64 {} 18446744073709551615).get_u64 =
      some 18446744073709551615 :=
  ⟨set_u64_get_u64_roundtrip _ 0 (by norm_num),
   set_u64_get_u64_roundtrip _ 18446744073709551615 (by norm_num)⟩

/-! ### Extraction orchestrator lemmas (C1, C5) -/

/-- Trace predicate: the event is a `set_operation_result` call. -/
def is_op_result : ExtractEvent → Bool
  | .opResult _ _ => true
  | _ => false

/-- Trace projection: the value of a `set_completed` call. -/
def completed_value : ExtractEvent → Option Nat
  | .completed v => some v
  | _ => none

/-- Under a cooperating host (no failing `get_stream` or
`set_operation_result` on indices that resolve), the extract loop returns
`S_OK` and signals a per-item result, with the code
`extract_result_for`, for every resolved index. -/
lemma extract_loop_ok (items : List ArchiveItem) (tm : Int)
    (host : ExtractHost) (l : List Nat) :
    ∀ c : Nat,
    (∀ i ∈ l, items[i]?.isSome = true →
      hresult_is_err (host.getStream i).1 = false ∧
      hresult_is_err (host.setOpResultHr i) = false) →
    (extract_loop items tm host l c).1 = S_OK ∧
    ∀ i ∈ l, items[i]?.isSome = true →
      ExtractEvent.opResult i (extract_result_for tm host i) ∈
        (extract_loop items tm host l c).2 := by
  induction l with
  | nil => intro c _; simp [extract_loop, S_OK]
  | cons j rest ih =>
    intro c h
    cases hget : items[j]? with
    | none =>
      have hrec := ih c (fun i hi hr => h i (List.mem_cons_of_mem _ hi) hr)
      refine ⟨by simpa [extract_loop, hget] using hrec.1, ?_⟩
      intro i hi hsome
      rcases List.mem_cons.mp hi with rfl | hi'
      · rw [hget] at hsome; simp at hsome
      · simpa [extract_loop, hget] using hrec.2 i hi' hsome
    | some item =>
      obtain ⟨hs1, hs2⟩ := h j (List.mem_cons_self j rest) (by simp [hget])
      have hrec := ih ((c + item.size) % 2 ^ 64)
        (fun i hi hr => h i (List.mem_cons_of_mem _ hi) hr)
      refine ⟨by simpa [extract_loop, hget, hs1, hs2] using hrec.1, ?_⟩
      intro i hi hsome
      rcases List.mem_cons.mp hi with rfl | hi'
      · simp [extract_loop, hget, hs1, hs2, extract_result_for]
      · have := hrec.2 i hi' hsome
        simp only [extract_loop, hget, hs1, hs2]
        simp only [Bool.false_eq_true, if_false]
        exact List.mem_cons_of_mem _ (List.mem_cons_of_mem _
          (List.mem_cons_of_mem _ this))

/-- When every index resolves and the host cooperates, the loop signals a
per-item result exactly once per index. -/
lemma extract_loop_count (items : List ArchiveItem) (tm : Int)
    (host : ExtractHost) (l : List Nat) :
    ∀ c : Nat,
    (∀ i ∈ l, items[i]?.isSome = true) →
    (∀ i ∈ l, hresult_is_err (host.getStream i).1 = false ∧
      hresult_is_err (host.setOpResultHr i) = false) →
    ((extract_loop items tm host l c).2.filter is_op_result).length =
      l.length := by
  induction l with
  | nil => intro c _ _; simp [extract_loop]
  | cons j rest ih =>
    intro c hres h
    obtain ⟨item, hget⟩ := Option.isSome_iff_exists.mp
      (hres j (List.mem_cons_self j rest))
    obtain ⟨hs1, hs2⟩ := h j (List.mem_cons_self j rest)
    have hrec := ih ((c + item.size) % 2 ^ 64)
      (fun i hi => hres i (List.mem_cons_of_mem _ hi))
      (fun i hi => h i (List.mem_cons_of_mem _ hi))
    simp only [extract_loop, hget, hs1, hs2, Bool.false_eq_true, if_false]
    simpa [is_op_result] using hrec

/-- The declared sizes of the indices in `l` that resolve to items. -/
def declared_sizes (items : List ArchiveItem) (l : List Nat) : List Nat :=
  l.filterMap (fun i => items[i]?.map (·.size))

/-- When every index resolves and the host cooperates, the last
`set_completed` value is the starting count plus the wrapping u64 sum of the
declared sizes. -/
lemma extract_loop_last_completed (items : List ArchiveItem) (tm : Int)
    (host : ExtractHost) (l : List Nat) :
    ∀ c : Nat,
    (∀ i ∈ l, items[i]?.isSome = true) →
    (∀ i ∈ l, hresult_is_err (host.getStream i).1 = false ∧
      hresult_is_err (host.setOpResultHr i) = false) →
    l ≠ [] →
    ((extract_loop items tm host l c).2.filterMap completed_value).getLast? =
      some ((c + (declared_sizes items l).sum) % 2 ^ 64) := by
  induction l with
  | nil => intro c _ _ hne; exact absurd rfl hne
  | cons j rest ih =>
    intro c hres h _
    obtain ⟨item, hget⟩ := Option.isSome_iff_exists.mp
      (hres j (List.mem_cons_self j rest))
    obtain ⟨hs1, hs2⟩ := h j (List.mem_cons_self j rest)
    by_cases hrest : rest = []
    · subst hrest
      simp [extract_loop, hget, hs1, hs2, completed_value, declared_sizes]
    · have hrec := ih ((c + item.size) % 2 ^ 64)
        (fun i hi => hres i (List.mem_cons_of_mem _ hi))
        (fun i hi => h i (List.mem_cons_of_mem _ hi))
        hrest
      have hlist :
          ((extract_loop items tm host (j :: rest) c).2.filterMap
            completed_value) =
          ((c + item.size) % 2 ^ 64) ::
            ((extract_loop items tm host rest
              ((c + item.size) % 2 ^ 64)).2.filterMap completed_value) := by
        simp only [extract_loop, hget, hs1, hs2, Bool.false_eq_true, if_false]
        simp [completed_value]
      rw [hlist]
      have hne2 : ((extract_loop items tm host rest
          ((c + item.size) % 2 ^ 64)).2.filterMap completed_value) ≠ [] := by
        intro hnil
        rw [hnil] at hrec
        simp at hrec
      obtain ⟨b, t, hbt⟩ := List.exists_cons_of_ne_nil hne2
      rw [hbt, List.getLast?_cons_cons, ← hbt, hrec]
      have hds : declared_sizes items (j :: rest) =
          item.size :: declared_sizes items rest := by
        simp [declared_sizes, hget]
      rw [hds, List.sum_cons]
      congr 1
      rw [Nat.mod_add_mod, Nat.add_assoc]

/-- Over the full index range of a list, the declared sizes are exactly the
items' sizes. -/
lemma declared_sizes_range (items : List ArchiveItem) :
    declared_sizes items (List.range items.length) = items.map (·.size) := by
  unfold declared_sizes
  induction items with
  | nil => simp
  | cons a tl ih =>
    have hfun : ((fun i => Option.map (fun x => x.size) (a :: tl)[i]?) ∘
        Nat.succ) = fun i => Option.map (fun x => x.size) tl[i]? := by
      funext i
      simp [Function.comp]
    rw [List.length_cons, List.range_succ_eq_map, List.filterMap_cons,
      List.filterMap_map, hfun]
    simp [ih]

/-- **C1.** With test mode off, if the format logic's extraction fails at a
resolved index `j` for which the host supplied an output stream, and the
host's `get_stream` / `set_operation_result` themselves never fail, then
the call still returns `S_OK`, index `j`'s per-item result is signaled as
data-error, and every resolved index of the request (subsequent ones
included) gets its per-item result code `extract_result_for` signaled. -/
theorem extract_failure_not_fatal (items : List ArchiveItem)
    (req : ExtractIndices) (host : ExtractHost) (j : Nat)
    (hok : ∀ i ∈ resolve_indices req items.length,
      items[i]?.isSome = true →
      hresult_is_err (host.getStream i).1 = false ∧
      hresult_is_err (host.setOpResultHr i) = false)
    (hj : j ∈ resolve_indices req items.length)
    (hjitem : items[j]?.isSome = true)
    (hjstream : (host.getStream j).2 = true)
    (hjfail : host.extractOk j = false) :
    (extract items req 0 false host).1 = S_OK ∧
    ExtractEvent.opResult j NRESULT_DATA_ERROR ∈
      (extract items req 0 false host).2 ∧
    ∀ i ∈ resolve_indices req items.length, items[i]?.isSome = true →
      ExtractEvent.opResult i (extract_result_for 0 host i) ∈
        (extract items req 0 false host).2 := by
  have hrun := extract_loop_ok items 0 host
    (resolve_indices req items.length) 0 hok
  have hjres : extract_result_for 0 host j = NRESULT_DATA_ERROR := by
    unfold extract_result_for
    rw [if_neg (by simp [hjstream]), if_neg (by simp [hjfail])]
  refine ⟨?_, ?_, ?_⟩
  · simpa [extract] using hrun.1
  · have := hrun.2 j hj hjitem
    rw [hjres] at this
    simp only [extract, if_neg (by simp : ¬ (false = true))]
    exact List.mem_cons_of_mem _ this
  · intro i hi hsome
    have := hrun.2 i hi hsome
    simp only [extract, if_neg (by simp : ¬ (false = true))]
    exact List.mem_cons_of_mem _ this

/-- A host whose streams and result signals always succeed, and whose format
extraction fails exactly at index 1. -/
def okExtractHost : ExtractHost where
  getStream := fun _ => (0, true)
  extractOk := fun i => decide (i ≠ 1)
  setOpResultHr := fun _ => 0

/-- Witness for C1: three items, the middle one failing. -/
theorem extract_failure_not_fatal_witness :
    (extract [{name := "a", size := 1}, {name := "b", size := 2},
        {name := "c", size := 3}] (.explicit [0, 1, 2]) 0 false
        okExtractHost).1 = S_OK ∧
    ExtractEvent.opResult 1 NRESULT_DATA_ERROR ∈
      (extract [{name := "a", size := 1}, {name := "b", size := 2},
        {name := "c", size := 3}] (.explicit [0, 1, 2]) 0 false
        okExtractHost).2 :=
  ⟨(extract_failure_not_fatal _ (.explicit [0, 1, 2]) okExtractHost 1
      (by decide) (by decide) (by decide) (by decide) (by decide)).1,
   (extract_failure_not_fatal _ (.explicit [0, 1, 2]) okExtractHost 1
      (by decide) (by decide) (by decide) (by decide) (by decide)).2.1⟩

/-- **C5.** Extraction with the all-items sentinel over an archive of `n`
items, under a cooperating host: the total reported to `set_total` is the
sum of the `n` declared sizes, the per-item result is signaled exactly `n`
times, and the cumulative completed-bytes reported after the last item
equals that total. -/
theorem extract_all_spec (items : List ArchiveItem) (host : ExtractHost)
    (tm : Int)
    (hok : ∀ i ∈ List.range items.length,
      hresult_is_err (host.getStream i).1 = false ∧
      hresult_is_err (host.setOpResultHr i) = false)
    (hsum : (items.map (·.size)).sum < 2 ^ 64) :
    (extract items .all tm false host).1 = S_OK ∧
    (extract items .all tm false host).2.head? =
      some (.setTotal ((items.map (·.size)).sum)) ∧
    ((extract items .all tm false host).2.filter is_op_result).length =
      items.length ∧
    (items ≠ [] →
      ((extract items .all tm false host).2.filterMap
        completed_value).getLast? = some ((items.map (·.size)).sum)) := by
  have hres : ∀ i ∈ List.range items.length, items[i]?.isSome = true := by
    intro i hi
    simp [List.getElem?_eq_getElem (List.mem_range.mp hi)]
  have htotal : (declared_sizes items (List.range items.length)).sum % 2 ^ 64 =
      (items.map (·.size)).sum := by
    rw [declared_sizes_range, Nat.mod_eq_of_lt hsum]
  refine ⟨?_, ?_, ?_, ?_⟩
  · have := (extract_loop_ok items tm host (List.range items.length) 0
      (fun i hi _ => hok i hi)).1
    simpa [extract] using this
  · simp only [extract, if_neg (by simp : ¬ (false = true)),
      resolve_indices, List.head?_cons]
    rw [show (List.range items.length).filterMap
        (fun i => items[i]?.map (·.size)) =
        declared_sizes items (List.range items.length) from rfl, htotal]
  · have := extract_loop_count items tm host (List.range items.length) 0
      hres hok
    simp only [extract, if_neg (by simp : ¬ (false = true)), resolve_indices]
    simpa [is_op_result] using this
  · intro hne
    have hlne : List.range items.length ≠ [] := by
      simpa using hne
    have hlast := extract_loop_last_completed items tm host
      (List.range items.length) 0 hres hok hlne
    rw [declared_sizes_range] at hlast
    simp only [extract, if_neg (by simp : ¬ (false = true)), resolve_indices,
      List.filterMap_cons, completed_value]
    rw [hlast, Nat.zero_add, Nat.mod_eq_of_lt hsum]

/-- Witness for C5: three items of sizes 1, 2, 3 under a cooperating host. -/
theorem extract_all_spec_witness :
    (extract [{name := "a", size := 1}, {name := "b", size := 2},
        {name := "c", size := 3}] .all 0 false okExtractHost).1 = S_OK ∧
    ((extract [{name := "a", size := 1}, {name := "b", size := 2},
        {name := "c", size := 3}] .all 0 false okExtractHost).2.filter
      is_op_result).length = 3 ∧
    ((extract [{name := "a", size := 1}, {name := "b", size := 2},
        {name := "c", size := 3}] .all 0 false okExtractHost).2.filterMap
      completed_value).getLast? = some 6 :=
  ⟨(extract_all_spec _ okExtractHost 0 (by decide) (by norm_num)).1,
   (extract_all_spec _ okExtractHost 0 (by decide) (by norm_num)).2.2.1,
   (extract_all_spec _ okExtractHost 0 (by decide) (by norm_num)).2.2.2
     (by simp)⟩

/-! ### Update orchestrator lemmas (C2, C4, C9, C10) -/

/-- **C2.** An `update_items` call that passes argument validation (non-null
output stream and callback) ends with the handler closed, whatever the inner
call did: the format implementation's `close` runs, the open flag is
cleared, and the held input-stream reference (when present) is released and
nulled before returning. -/
theorem update_items_cleanup (st : HandlerState) (host : UpdateHost)
    (num : Nat) :
    (update_items st false false host num).2.2.2.isOpen = false ∧
    (update_items st false false host num).2.2.2.inStream = false ∧
    UpdateEvent.innerClose ∈ (update_items st false false host num).2.1 ∧
    (st.inStream = true →
      UpdateEvent.releaseInStream ∈
        (update_items st false false host num).2.1) := by
  unfold update_items
  simp only [Bool.false_eq_true, or_self, if_false]
  refine ⟨trivial, trivial, ?_, ?_⟩
  · simp [List.mem_append]
  · intro h
    simp [h, List.mem_append]

/-- A host that makes every slot an added file and always cooperates. -/
def simpleUpdateHost : UpdateHost where
  itemInfo := fun _ => (0, 1, 0, 0)
  sizeProp := fun _ => { vt := VT_UI8, data := 4 }
  isDirProp := fun _ => { vt := VT_BOOL, data := 0 }
  pathProp := fun _ => (0, { vt := VT_BSTR, data := 1, str := some "f" })
  streamResp := fun _ => (0, .readOk [1, 2, 3, 4])
  reports := [(2, 4), (4, 4)]
  setCompletedHr := fun _ => 0
  writeOk := true
  inReaderOk := true

/-- Witness for C2: a one-slot update on a handler holding a stream. -/
theorem update_items_cleanup_witness :
    (update_items ⟨[], true, true, 9⟩ false false simpleUpdateHost
      1).2.2.2.isOpen = false ∧
    (update_items ⟨[], true, true, 9⟩ false false simpleUpdateHost
      1).2.2.2.inStream = false ∧
    UpdateEvent.innerClose ∈
      (update_items ⟨[], true, true, 9⟩ false false simpleUpdateHost 1).2.1 ∧
    UpdateEvent.releaseInStream ∈
      (update_items ⟨[], true, true, 9⟩ false false simpleUpdateHost 1).2.1 :=
  ⟨(update_items_cleanup ⟨[], true, true, 9⟩ simpleUpdateHost 1).1,
   (update_items_cleanup ⟨[], true, true, 9⟩ simpleUpdateHost 1).2.1,
   (update_items_cleanup ⟨[], true, true, 9⟩ simpleUpdateHost 1).2.2.1,
   (update_items_cleanup ⟨[], true, true, 9⟩ simpleUpdateHost 1).2.2.2 rfl⟩

/-- Every continue signal collected by the shared write-phase body is
`true`. -/
lemma run_write_signals (host : UpdateHost) (descs : List UpdateItem)
    (total : Nat) :
    ((run_write host descs total).2.2.all (fun b => b)) = true := by
  unfold run_write
  split <;> simp [progress_fn, List.all_eq_true]

/-- **C9.** The update orchestrator's progress-rescaling callback returns
the continue signal for every `(completed, total)` pair the format logic
reports, regardless of the outcome of the host's `set_completed` call: the
embedded closure returns `true` unconditionally, and every signal an
`update_items_inner` run hands back to the format logic is `true`. -/
theorem update_progress_always_continue (set_completed_hr : Int)
    (write_completed write_total : Nat) (st : HandlerState)
    (host : UpdateHost) (num : Nat) :
    (progress_fn set_completed_hr write_completed write_total).2 = true ∧
    ((update_items_inner st host num).2.2.all (fun b => b)) = true := by
  refine ⟨rfl, ?_⟩
  cases hp : pass1 st.items host (List.range num) 0 with
  | error hr => simp [update_items_inner, hp]
  | ok total =>
    cases hq : (pass2 host (List.range num)).err with
    | some hr => simp [update_items_inner, hp, hq]
    | none =>
      simp only [update_items_inner, hp, hq]
      unfold write_phase
      split
      · exact run_write_signals _ _ _
      · split
        · simp
        · exact run_write_signals _ _ _

/-- Whenever the write phase is reached with a constructible reader (no held
stream, or `InStreamReader::new` succeeding), the collected descriptor list
is handed to the format logic's streaming update operation. -/
lemma writePhase_mem_write_phase (st : HandlerState) (host : UpdateHost)
    (descs : List UpdateItem) (total : Nat)
    (hreach : st.inStream = false ∨ host.inReaderOk = true) :
    UpdateEvent.writePhase descs ∈ (write_phase st host descs total).2.1 := by
  have hrw : UpdateEvent.writePhase descs ∈ (run_write host descs total).2.1 := by
    unfold run_write
    split <;> simp
  unfold write_phase
  rcases hreach with h | h
  · rw [if_pos h]
    exact hrw
  · by_cases h2 : st.inStream = false
    · rw [if_pos h2]
      exact hrw
    · rw [if_neg h2, if_neg (by simp [h])]
      exact hrw

/-- **C4.** An update whose slot 0 is a new-data non-directory item (of
decoded declared size `s`) and whose slot 1 is a copy of existing item
`ia1` (of declared size `item.size`): the total reported to `set_total`
before any data is collected is `s + item.size`, and exactly one `AddNew`
descriptor and one `CopyExisting` descriptor (referencing `ia1`, with no
rename) are passed to the streaming update operation.  Moreover, adding a
third slot with neither flag set (a deletion) changes neither the total nor
the descriptor list. -/
theorem update_add_copy_spec (st : HandlerState) (host : UpdateHost)
    (hr0 nd0 np0 : Int) (ia0 : Nat)
    (hI0 : host.itemInfo 0 = (hr0, nd0, np0, ia0))
    (h0ok : hresult_is_err hr0 = false) (h0nd : nd0 ≠ 0)
    (h0dir : (host.isDirProp 0).get_bool.getD false = false)
    (hrP : Int) (pv : RawPropVariant)
    (hP : host.pathProp 0 = (hrP, pv)) (hPok : hresult_is_err hrP = false)
    (hrS : Int) (sc : SlotStream)
    (hS : host.streamResp 0 = (hrS, sc)) (hSok : hresult_is_err hrS = false)
    (s : Nat) (hsize : (host.sizeProp 0).get_u64 = some s)
    (hr1 np1 : Int) (ia1 : Nat)
    (hI1 : host.itemInfo 1 = (hr1, 0, np1, ia1))
    (h1ok : hresult_is_err hr1 = false) (h1ia : ia1 ≠ U32_MAX)
    (item : ArchiveItem) (hitem : st.items[ia1]? = some item)
    (hsum : s + item.size < 2 ^ 64)
    (hreach : st.inStream = false ∨ host.inReaderOk = true) :
    (update_items st false false host 2).2.1.head? =
      some (.setTotal (s + item.size)) ∧
    UpdateEvent.writePhase
        [.AddNew (pv.get_bstr.getD "") (stream_data sc),
         .CopyExisting ia1 none] ∈ (update_items st false false host 2).2.1 ∧
    (∀ hr2 np2 : Int, host.itemInfo 2 = (hr2, 0, np2, U32_MAX) →
      hresult_is_err hr2 = false →
      (update_items st false false host 3).2.1.head? =
        some (.setTotal (s + item.size)) ∧
      UpdateEvent.writePhase
          [.AddNew (pv.get_bstr.getD "") (stream_data sc),
           .CopyExisting ia1 none] ∈
        (update_items st false false host 3).2.1) := by
  have hs64 : s < 2 ^ 64 := lt_of_le_of_lt (Nat.le_add_right s item.size) hsum
  have h10 : pass1_slot st.items host 0 = .ok s := by
    simp [pass1_slot, hI0, h0ok, h0nd, hsize]
  have h11 : pass1_slot st.items host 1 = .ok item.size := by
    simp [pass1_slot, hI1, h1ok, h1ia, hitem]
  have h20 : pass2_slot host 0 =
      .ok (some (.AddNew (pv.get_bstr.getD "") (stream_data sc)),
        [.opResult 0 NRESULT_OK]) := by
    simp [pass2_slot, hI0, h0ok, h0nd, h0dir, hP, hPok, hS, hSok]
  have h21 : pass2_slot host 1 =
      .ok (some (.CopyExisting ia1 none), [.opResult 1 NRESULT_OK]) := by
    simp [pass2_slot, hI1, h1ok, h1ia]
  have hrange2 : List.range 2 = [0, 1] := by decide
  have hp1b : pass1 st.items host (List.range 2) 0 = .ok (s + item.size) := by
    rw [hrange2]
    simp only [pass1, h10, h11]
    rw [Nat.zero_add, Nat.mod_eq_of_lt hs64, Nat.mod_eq_of_lt hsum]
  have hp2b : pass2 host (List.range 2) =
      ⟨[.AddNew (pv.get_bstr.getD "") (stream_data sc),
        .CopyExisting ia1 none],
       [.opResult 0 NRESULT_OK, .opResult 1 NRESULT_OK], none⟩ := by
    rw [hrange2]
    simp [pass2, h20, h21]
  have hw := writePhase_mem_write_phase st host
    [.AddNew (pv.get_bstr.getD "") (stream_data sc), .CopyExisting ia1 none]
    (s + item.size) hreach
  refine ⟨?_, ?_, ?_⟩
  · unfold update_items
    simp only [Bool.false_eq_true, or_self, if_false]
    simp only [update_items_inner, hp1b, hp2b]
    simp [List.cons_append]
  · unfold update_items
    simp only [Bool.false_eq_true, or_self, if_false]
    simp only [update_items_inner, hp1b, hp2b]
    simp only [List.mem_append, List.mem_cons]
    tauto
  · intro hr2v np2v hI2 h2ok
    have h12 : pass1_slot st.items host 2 = .ok 0 := by
      simp [pass1_slot, hI2, h2ok]
    have h22 : pass2_slot host 2 = .ok (none, []) := by
      simp [pass2_slot, hI2, h2ok]
    have hrange3 : List.range 3 = [0, 1, 2] := by decide
    have hp1c : pass1 st.items host (List.range 3) 0 = .ok (s + item.size) := by
      rw [hrange3]
      simp only [pass1, h10, h11, h12]
      rw [Nat.zero_add, Nat.mod_eq_of_lt hs64, Nat.mod_eq_of_lt hsum,
        Nat.add_zero, Nat.mod_eq_of_lt hsum]
    have hp2c : pass2 host (List.range 3) =
        ⟨[.AddNew (pv.get_bstr.getD "") (stream_data sc),
          .CopyExisting ia1 none],
         [.opResult 0 NRESULT_OK, .opResult 1 NRESULT_OK], none⟩ := by
      rw [hrange3]
      simp [pass2, h20, h21, h22]
    refine ⟨?_, ?_⟩
    · unfold update_items
      simp only [Bool.false_eq_true, or_self, if_false]
      simp only [update_items_inner, hp1c, hp2c]
      simp [List.cons_append]
    · unfold update_items
      simp only [Bool.false_eq_true, or_self, if_false]
      simp only [update_items_inner, hp1c, hp2c]
      simp only [List.mem_append, List.mem_cons]
      tauto

/-- A host presenting slot 0 as a new file of declared size 10, slot 1 as a
copy of existing item 0, and slot 2 as a deletion. -/
def addCopyHost : UpdateHost where
  itemInfo := fun i =>
    if i = 0 then (0, 1, 0, 0)
    else if i = 1 then (0, 0, 0, 0)
    else (0, 0, 0, U32_MAX)
  sizeProp := fun _ => { vt := VT_UI8, data := 10 }
  isDirProp := fun _ => { vt := VT_BOOL, data := 0 }
  pathProp := fun _ => (0, { vt := VT_BSTR, data := 1, str := some "new.txt" })
  streamResp := fun _ => (0, .readOk [7, 8])
  reports := []
  setCompletedHr := fun _ => 0
  writeOk := true
  inReaderOk := true

/-- Witness for C4: one added file (size 10), one copied item (size 20). -/
theorem update_add_copy_spec_witness :
    (update_items ⟨[{ name := "old", size := 20 }], true, false, 0⟩ false
      false addCopyHost 2).2.1.head? = some (.setTotal 30) ∧
    UpdateEvent.writePhase [.AddNew "new.txt" [7, 8], .CopyExisting 0 none] ∈
      (update_items ⟨[{ name := "old", size := 20 }], true, false, 0⟩ false
        false addCopyHost 2).2.1 ∧
    UpdateEvent.writePhase [.AddNew "new.txt" [7, 8], .CopyExisting 0 none] ∈
      (update_items ⟨[{ name := "old", size := 20 }], true, false, 0⟩ false
        false addCopyHost 3).2.1 := by
  have h := update_add_copy_spec ⟨[{ name := "old", size := 20 }], true,
      false, 0⟩ addCopyHost 0 1 0 0 rfl rfl (by decide) (by decide)
      0 { vt := VT_BSTR, data := 1, str := some "new.txt" } rfl rfl
      0 (.readOk [7, 8]) rfl rfl 10 rfl 0 0 0 rfl rfl (by decide)
      { name := "old", size := 20 } rfl (by norm_num) (Or.inl rfl)
  exact ⟨h.1, h.2.1, (h.2.2 0 0 rfl rfl).2⟩

/-- The second collection pass distributes over list append: an abort in the
first part discards the rest, otherwise descriptors and events concatenate
and the abort status comes from the second part. -/
lemma pass2_append (host : UpdateHost) (l1 l2 : List Nat) :
    pass2 host (l1 ++ l2) =
      if (pass2 host l1).err = none then
        ⟨(pass2 host l1).descs ++ (pass2 host l2).descs,
         (pass2 host l1).evs ++ (pass2 host l2).evs,
         (pass2 host l2).err⟩
      else pass2 host l1 := by
  induction l1 with
  | nil => simp [pass2]
  | cons i t ih =>
    cases h : pass2_slot host i with
    | error hr => simp [pass2, h]
    | ok pr =>
      obtain ⟨d, e⟩ := pr
      simp only [List.cons_append, pass2, h]
      simp only [List.append_eq]
      rw [ih]
      by_cases ht : (pass2 host t).err = none
      · rw [if_pos ht]
        simp [ht, List.append_assoc]
      · rw [if_neg ht]
        simp [ht]

/-- The events a single collection slot emits are per-item result signals
only. -/
lemma pass2_slot_evs (host : UpdateHost) (i : Nat) (d : Option UpdateItem)
    (ev : List UpdateEvent) (h : pass2_slot host i = .ok (d, ev)) :
    ∀ e ∈ ev, ∃ sl r, e = UpdateEvent.opResult sl r := by
  rcases hI : host.itemInfo i with ⟨hr, nd, np, ia⟩
  rcases hPv : host.pathProp i with ⟨hrP, pv⟩
  rcases hSv : host.streamResp i with ⟨hrS, sc⟩
  simp only [pass2_slot, hI, hPv, hSv] at h
  split_ifs at h <;> cases h <;> intro e he <;> simp at he <;> subst he <;>
    exact ⟨i, NRESULT_OK, rfl⟩

/-- Every event the second collection pass emits is a per-item result
signal; in particular no write-phase marker appears during collection. -/
lemma pass2_evs_opResult (host : UpdateHost) (l : List Nat) :
    ∀ e ∈ (pass2 host l).evs, ∃ sl r, e = UpdateEvent.opResult sl r := by
  induction l with
  | nil => intro e he; simp [pass2] at he
  | cons i t ih =>
    intro e he
    cases h : pass2_slot host i with
    | error hr =>
      simp only [pass2, h] at he
      simp at he
    | ok pr =>
      obtain ⟨d, ev⟩ := pr
      simp only [pass2, h, List.mem_append] at he
      rcases he with he | he
      · exact pass2_slot_evs host i d ev h e he
      · exact ih e he

/-- **C10.** During collection, a new-data slot `i` whose input stream is
acquired successfully but whose read fails does not make the call fail: the
slot is appended as an `AddNew` descriptor with empty byte content, its
per-item result is signaled ok, collection continues (the call's result is
exactly the write phase's result), whereas a failure to acquire the stream
itself aborts the call with the host's HRESULT before any write phase.
`l1`/`l2` are the slots before/after `i`, assumed not to abort. -/
theorem update_read_failure_not_fatal (st : HandlerState) (host : UpdateHost)
    (num i : Nat) (l1 l2 : List Nat)
    (hrange : List.range num = l1 ++ i :: l2)
    (h1 : (pass2 host l1).err = none)
    (hr0 nd0 np0 : Int) (ia0 : Nat)
    (hI : host.itemInfo i = (hr0, nd0, np0, ia0))
    (hok : hresult_is_err hr0 = false) (hnd : nd0 ≠ 0)
    (hdir : (host.isDirProp i).get_bool.getD false = false)
    (hrP : Int) (pv : RawPropVariant)
    (hP : host.pathProp i = (hrP, pv)) (hPok : hresult_is_err hrP = false)
    (hrS : Int)
    (hS : host.streamResp i = (hrS, .readErr))
    (hSok : hresult_is_err hrS = false)
    (h2 : (pass2 host l2).err = none)
    (T : Nat) (hp1 : pass1 st.items host (List.range num) 0 = .ok T) :
    (pass2 host (List.range num)).descs =
      (pass2 host l1).descs ++
        UpdateItem.AddNew (pv.get_bstr.getD "") [] ::
          (pass2 host l2).descs ∧
    (pass2 host (List.range num)).err = none ∧
    UpdateEvent.opResult i NRESULT_OK ∈
      (update_items_inner st host num).2.1 ∧
    (update_items_inner st host num).1 =
      (write_phase st host (pass2 host (List.range num)).descs T).1 ∧
    (∀ (host2 : UpdateHost) (hrS2 hrB ndB npB hrPB : Int) (iaB : Nat)
       (pvB : RawPropVariant) (sc2 : SlotStream) (T2 : Nat),
      (pass2 host2 l1).err = none →
      host2.itemInfo i = (hrB, ndB, npB, iaB) →
      hresult_is_err hrB = false → ndB ≠ 0 →
      (host2.isDirProp i).get_bool.getD false = false →
      host2.pathProp i = (hrPB, pvB) →
      hresult_is_err hrPB = false →
      host2.streamResp i = (hrS2, sc2) →
      hresult_is_err hrS2 = true →
      pass1 st.items host2 (List.range num) 0 = .ok T2 →
      (update_items_inner st host2 num).1 = hrS2 ∧
      ∀ ds, UpdateEvent.writePhase ds ∉
        (update_items_inner st host2 num).2.1) := by
  have hslot : pass2_slot host i =
      .ok (some (.AddNew (pv.get_bstr.getD "") []),
        [.opResult i NRESULT_OK]) := by
    simp [pass2_slot, hI, hok, hnd, hdir, hP, hPok, hS, hSok, stream_data]
  have hcons : pass2 host (i :: l2) =
      ⟨UpdateItem.AddNew (pv.get_bstr.getD "") [] :: (pass2 host l2).descs,
       UpdateEvent.opResult i NRESULT_OK :: (pass2 host l2).evs,
       (pass2 host l2).err⟩ := by
    simp [pass2, hslot]
  have hfull : pass2 host (List.range num) =
      ⟨(pass2 host l1).descs ++
         (UpdateItem.AddNew (pv.get_bstr.getD "") [] ::
           (pass2 host l2).descs),
       (pass2 host l1).evs ++
         (UpdateEvent.opResult i NRESULT_OK :: (pass2 host l2).evs),
       (pass2 host l2).err⟩ := by
    rw [hrange, pass2_append host l1 (i :: l2), if_pos h1, hcons]
  have herr : (pass2 host (List.range num)).err = none := by
    rw [hfull]
    exact h2
  refine ⟨by rw [hfull], herr, ?_, ?_, ?_⟩
  · simp only [update_items_inner, hp1, herr]
    rw [hfull]
    simp [List.mem_append]
  · simp only [update_items_inner, hp1, herr]
  · intro host2 hrS2 hrB ndB npB hrPB iaB pvB sc2 T2
      hb1 hbI hbok hbnd hbdir hbP hbPok hbS hbSerr hbp1
    have hslot2 : pass2_slot host2 i = .error hrS2 := by
      simp [pass2_slot, hbI, hbok, hbnd, hbdir, hbP, hbPok, hbS, hbSerr]
    have hcons2 : pass2 host2 (i :: l2) = ⟨[], [], some hrS2⟩ := by
      simp [pass2, hslot2]
    have hfull2 : pass2 host2 (List.range num) =
        ⟨(pass2 host2 l1).descs, (pass2 host2 l1).evs, some hrS2⟩ := by
      rw [hrange, pass2_append host2 l1 (i :: l2), if_pos hb1, hcons2]
      simp
    have herr2 : (pass2 host2 (List.range num)).err = some hrS2 := by
      rw [hfull2]
    constructor
    · simp only [update_items_inner, hbp1, herr2]
    · intro ds hmem
      simp only [update_items_inner, hbp1, herr2] at hmem
      rcases List.mem_cons.mp hmem with h' | h'
      · simp at h'
      · obtain ⟨sl, r, hEq⟩ := pass2_evs_opResult host2 (List.range num)
          _ h'
        simp at hEq

/-- A host whose single slot is a new file whose stream read fails. -/
def readErrHost : UpdateHost where
  itemInfo := fun _ => (0, 1, 0, 0)
  sizeProp := fun _ => { vt := VT_UI8, data := 3 }
  isDirProp := fun _ => { vt := VT_BOOL, data := 0 }
  pathProp := fun _ => (0, { vt := VT_BSTR, data := 1, str := some "x" })
  streamResp := fun _ => (0, .readErr)
  reports := []
  setCompletedHr := fun _ => 0
  writeOk := true
  inReaderOk := true

/-- Like `readErrHost`, but `get_stream` itself fails. -/
def acquireFailHost : UpdateHost :=
  { readErrHost with streamResp := fun _ => (-1, .readErr) }

/-- Witness for C10: one slot whose read fails yields an empty `AddNew` and
an ok result; a failing stream acquisition aborts with the host's code. -/
theorem update_read_failure_not_fatal_witness :
    (pass2 readErrHost (List.range 1)).descs = [UpdateItem.AddNew "x" []] ∧
    UpdateEvent.opResult 0 NRESULT_OK ∈
      (update_items_inner ⟨[], true, false, 0⟩ readErrHost 1).2.1 ∧
    (update_items_inner ⟨[], true, false, 0⟩ acquireFailHost 1).1 = -1 := by
  have h := update_read_failure_not_fatal ⟨[], true, false, 0⟩ readErrHost
    1 0 [] [] rfl rfl 0 1 0 0 rfl rfl (by decide) rfl
    0 { vt := VT_BSTR, data := 1, str := some "x" } rfl rfl 0 rfl rfl rfl
    3 rfl
  have hb := h.2.2.2.2 acquireFailHost (-1) 0 1 0 0 0
    { vt := VT_BSTR, data := 1, str := some "x" } .readErr 3
    rfl rfl rfl (by decide) rfl rfl rfl rfl rfl rfl
  exact ⟨h.1, h.2.2.1, hb.1⟩

end SevenzipPlugin
